import Mathlib

/-!
Verification of the combat match orchestrator (combat.py).

This file shallowly embeds the components of combat.py that the verified
properties concern:

* `Timer` / `Timer.update_time` — the per-competitor clock (combat.py lines 45-65);
* `Match.win_score_adjudication` — the sliding-window score adjudicator
  (lines 207-257);
* `Match.update_headers` — termination-reason and result computation
  (lines 88-153), reduced to the headers it computes from the forfeit flags,
  the adjudication signals and the rules-interface queries on the final board;
* `update_score` — the scoreboard update (lines 471-505);
* the fixture-expansion loop of `main` (lines 924-966) together with the
  `total_games` formula (lines 912-913).

Machine integers of the source are modelled as `Int` (Python integers are
unbounded, so no wrap-around modelling is needed); score lists are `List Int`.
-/

namespace Combat

/-- Clock state, combat.py `Timer.__init__` (lines 45-54):
`btms` base time ms, `itms` increment ms, `rem_time` remaining ms
(initially `btms`), `tf` the time-forfeit flag (initially `false`). -/
structure Timer where
  btms : Int
  itms : Int
  rem_time : Int
  tf : Bool
deriving DecidableEq, Repr

/-- `Timer.update_time` (combat.py lines 56-65): if `rem_time - elapse < 1`
the time-forfeit flag is set (before the increment is credited), then
`rem_time += itms - elapse`.  Python applies `int(elapse)`; we take
`elapse : Int` directly. -/
def Timer.update_time (t : Timer) (elapse : Int) : Timer :=
  let t1 := if t.rem_time - elapse < 1 then { t with tf := true } else t
  { t1 with rem_time := t1.rem_time + t1.itms - elapse }

/-- The last `n` entries of a list, as Python's slice `xs[-n:]` computes it
(combat.py lines 231, 235, 245, 249): for `n = 0` the slice `xs[-0:]` is
`xs[0:]`, i.e. the whole list; for `n > 0` it is the final
`min n xs.length` elements. -/
def lastN (n : Nat) (xs : List Int) : List Int :=
  if n = 0 then xs else xs.drop (xs.length - n)

/-- `Match.win_score_adjudication` (combat.py lines 207-257).
`n` is `win_score_count` (default 4), `w` is `win_score_cp` (default 700).
Returns the pair `(blackWins, whiteWins)` mirroring the Python list
`[Black, White]`: `(false, true)` if the game is good for White,
`(true, false)` if good for Black, `(false, false)` to continue. -/
def win_score_adjudication (n : Nat) (w : Int) (wscores bscores : List Int) :
    Bool × Bool :=
  if wscores.length < n ∨ bscores.length < n then (false, false)
  else
    -- (1) White wins: w_good_cnt counts last-n white scores >= w,
    -- b_bad_cnt counts last-n black scores <= -w.
    let w_good_cnt := (lastN n wscores).countP (fun s => w ≤ s)
    let b_bad_cnt := (lastN n bscores).countP (fun s => s ≤ -w)
    if n ≤ w_good_cnt ∧ n ≤ b_bad_cnt then (false, true)
    else
      -- (2) Black wins: the mirror counts.
      let b_good_cnt := (lastN n bscores).countP (fun s => w ≤ s)
      let w_bad_cnt := (lastN n wscores).countP (fun s => s ≤ -w)
      if n ≤ b_good_cnt ∧ n ≤ w_bad_cnt then (true, false)
      else (false, false)

/-- The facts `Match.update_headers` queries from the final board via the
rules interface (combat.py lines 121-140), plus the result string that
`python-chess` itself reports for the board (`g.headers` at line 121). -/
structure BoardFacts where
  is_checkmate : Bool
  is_stalemate : Bool
  is_insufficient_material : Bool
  can_claim_fifty_moves : Bool
  is_repetition3 : Bool
  natural_result : String
deriving DecidableEq, Repr

/-- The natural-termination cascade of `Match.update_headers`
(combat.py lines 123-140). -/
def natural_termination (b : BoardFacts) : String :=
  if b.is_checkmate then "checkmate"
  else if b.is_stalemate then "stalemate"
  else if b.is_insufficient_material then "insufficient mating material"
  else if b.can_claim_fifty_moves then "fifty-move draw rule"
  else if b.is_repetition3 then "threefold repetition"
  else "unknown"

/-- `Match.update_headers` (combat.py lines 88-153), reduced to the
`(Termination, Result)` header pair it computes.  `write_tf` is the
`write_time_forfeit_result` field (set to `true` in `Match.__init__`, line 80,
and never changed).  `tf` is the `time_forfeit` list as a pair
`(tf[0], tf[1])` — index 0 is the Black side, index 1 the White side —
and `adj` is `score_adjudication` as `(adj[0], adj[1])` — index 0 means
good for Black, index 1 good for White.  In the forfeit branch Python first
writes `Termination = time forfeit` and, when `write_tf` is false,
overwrites it with `unterminated`; we return the net effect. -/
def update_headers (write_tf : Bool) (tf : Bool × Bool) (adj : Bool × Bool)
    (b : BoardFacts) : String × String :=
  if tf.2 || tf.1 then
    if write_tf then
      if tf.2 then ("time forfeit", "0-1") else ("time forfeit", "1-0")
    else ("unterminated", "*")
  else if adj.1 || adj.2 then
    (if adj.2 then "adjudication: good score for white"
     else "adjudication: good score for black",
     if adj.2 then "1-0" else "0-1")
  else (natural_termination b, b.natural_result)

/-- One scoreboard entry of the `player_data` dict (combat.py lines 898-902):
competitor name and the `win`, `loss`, `draw`, `tf` counters. -/
structure Player where
  name : String
  win : Nat
  loss : Nat
  draw : Nat
  tf : Nat
deriving DecidableEq, Repr

/-- The body of `update_score`'s loop for a single entry `p`
(combat.py lines 480-503): `res` is `g.headers` Result, `wp`/`bp` the White
and Black names, `termi` the Termination header.  Each iteration of the
Python loop reads and writes only entry `i`, so the loop is a map of this
per-entry update. -/
def update_entry (res wp bp termi : String) (p : Player) : Player :=
  if res = "1-0" then
    let p1 := if p.name = wp then { p with win := p.win + 1 } else p
    if p1.name = bp then
      { p1 with loss := p1.loss + 1,
                tf := if termi = "time forfeit" then p1.tf + 1 else p1.tf }
    else p1
  else if res = "0-1" then
    let p1 := if p.name = bp then { p with win := p.win + 1 } else p
    if p1.name = wp then
      { p1 with loss := p1.loss + 1,
                tf := if termi = "time forfeit" then p1.tf + 1 else p1.tf }
    else p1
  else if res = "1/2-1/2" then
    let p1 := if p.name = wp then { p with draw := p.draw + 1 } else p
    if p1.name = bp then { p1 with draw := p1.draw + 1 } else p1
  else p

/-- `update_score` (combat.py lines 471-505): updates every scoreboard entry
according to the game's Result, White, Black and Termination headers. -/
def update_score (res wp bp termi : String) (pd : List Player) : List Player :=
  pd.map (update_entry res wp bp termi)

/-- One fixture submitted by `main`'s expansion loop (combat.py lines
943-957): its global `game_id`, the round number and the `sub_round`
counter in tenths (the header round is `round_num + sub_round` when
`reverse_start_side` is set, else `round_num`), and the player indices:
`black_idx` is `m` (passed as `player1`, which plays Black) and
`white_idx` is `n` (`player2`, which plays White). -/
structure Fixture where
  game_id : Nat
  round_num : Nat
  sub_round : Nat
  black_idx : Nat
  white_idx : Nat
deriving DecidableEq, Repr

/-- The `gauntlet_color` command-line value (combat.py line 850): `none`
when the option is absent, otherwise the given string (the meaningful
values are "white" and "black"). -/
abbrev GauntletColor := Option String

/-- The break condition of the inner `while True` loop (combat.py lines
959-961): after the first fixture of a pairing the loop stops when
`reverse_start_side` is not set or `gauntlet_color` is "white" or
"black"; otherwise a second, color-swapped fixture is emitted and the
`games_per_pair_per_round >= 2` check (line 963) stops the loop. -/
def one_game_only (reverse : Bool) (gc : GauntletColor) : Bool :=
  !reverse || gc == some "white" || gc == some "black"

/-- The fixtures the `while True` loop (combat.py lines 943-966) emits for
one pairing `(m, n)` of one round, threading the `game_id` and `sub_round`
counters: each emission increments both; when a second fixture is emitted
the sides are swapped (`m, n = n, m`, line 966).  Returns the emitted
fixtures and the final `(game_id, sub_round)`. -/
def pair_fixtures (round_num m n game_id sub_round : Nat)
    (reverse : Bool) (gc : GauntletColor) : List Fixture × Nat × Nat :=
  let f1 : Fixture := ⟨game_id + 1, round_num, sub_round + 1, m, n⟩
  if one_game_only reverse gc then ([f1], game_id + 1, sub_round + 1)
  else ([f1, ⟨game_id + 2, round_num, sub_round + 2, n, m⟩],
        game_id + 2, sub_round + 2)

/-- The pairing list of one round (combat.py lines 933-940): for
`i in range(K)`, `m, n = 0, i+1`, swapped when `gauntlet_color == "white"`
(line 936-937); the loop breaks before emitting at `i = K-1` (line 939-940),
so exactly the pairs for `i = 0 .. K-2` are used. -/
def gauntlet_pairs (K : Nat) (gc : GauntletColor) : List (Nat × Nat) :=
  (List.range (K - 1)).map
    (fun i => if gc == some "white" then (i + 1, 0) else (0, i + 1))

/-- Iterates `pair_fixtures` over the pairings of one round (the
`for i in range(len(player_data))` loop, combat.py lines 933-966),
threading `game_id` and `sub_round`. -/
def pairs_fixtures (round_num : Nat) (reverse : Bool) (gc : GauntletColor) :
    List (Nat × Nat) → Nat → Nat → List Fixture × Nat × Nat
  | [], game_id, sub_round => ([], game_id, sub_round)
  | (m, n) :: rest, game_id, sub_round =>
    let r1 := pair_fixtures round_num m n game_id sub_round reverse gc
    let r2 := pairs_fixtures round_num reverse gc rest r1.2.1 r1.2.2
    (r1.1 ++ r2.1, r2.2)

/-- Iterates the round loop (`for game in games`, combat.py lines 928-966):
each position advances `round_num`, resets `sub_round` to 0 and emits the
fixtures of all pairings, threading `game_id` across rounds.  `p` counts
the remaining positions.  Returns the fixtures and the final `game_id`. -/
def rounds_fixtures (K : Nat) (reverse : Bool) (gc : GauntletColor) :
    Nat → Nat → Nat → List Fixture × Nat
  | 0, _round_num, game_id => ([], game_id)
  | p + 1, round_num, game_id =>
    let r1 := pairs_fixtures (round_num + 1) reverse gc
      (gauntlet_pairs K gc) game_id 0
    let r2 := rounds_fixtures K reverse gc p (round_num + 1) r1.2.1
    (r1.1 ++ r2.1, r2.2)

/-- The complete fixture expansion of `main` (combat.py lines 924-966) for
`K` competitors (`len(player_data)`) and `P` starting positions
(`len(games)`), starting from `game_id = 0`, `round_num = 0`. -/
def schedule_fixtures (K P : Nat) (reverse : Bool) (gc : GauntletColor) :
    List Fixture :=
  (rounds_fixtures K reverse gc P 0 0).1

/-- The `total_games` value computed in `main` (combat.py lines 912-913):
`(K-1) * P * 2` when `reverse_start_side` else `(K-1) * P`, halved
(integer division) when `gauntlet_color` is not None. -/
def total_games (K P : Nat) (reverse : Bool) (gc : GauntletColor) : Nat :=
  let t := if reverse then (K - 1) * P * 2 else (K - 1) * P
  if gc = none then t else t / 2

/-!  ## Theorems  -/

/-- Claim C2: for every clock state with remaining time `r`, increment `i`
and elapsed move time `e`, `update_time e` sets the forfeit flag whenever
`r - e < 1` (in particular whenever `e ≥ r`), using the pre-increment
balance, so the increment never rescues a forfeiting move; whenever
`e < r - 1` it leaves the flag false (when it was false); and in every
case the new remaining time is `r - e + i`. -/
theorem update_time_spec (t : Timer) (e : Int) :
    (t.rem_time - e < 1 → (t.update_time e).tf = true)
    ∧ (t.rem_time ≤ e → (t.update_time e).tf = true)
    ∧ (t.tf = false → e < t.rem_time - 1 → (t.update_time e).tf = false)
    ∧ (t.update_time e).rem_time = t.rem_time - e + t.itms := by
  unfold Timer.update_time
  refine ⟨?_, ?_, ?_, ?_⟩ <;> split <;> simp_all <;> omega

/-- Witness for `update_time_spec`: a clock at 1000 ms with 10 ms increment
forfeits on a 1000 ms move but not on a 5 ms move, and the balance updates
to `r - e + i` in both cases. -/
theorem update_time_spec_witness :
    (Timer.update_time ⟨1000, 10, 1000, false⟩ 1000).tf = true
    ∧ (Timer.update_time ⟨1000, 10, 1000, false⟩ 5).tf = false
    ∧ (Timer.update_time ⟨1000, 10, 1000, false⟩ 1000).rem_time = 10
    ∧ (Timer.update_time ⟨1000, 10, 1000, false⟩ 5).rem_time = 1005 :=
  ⟨(update_time_spec ⟨1000, 10, 1000, false⟩ 1000).2.1 (by decide),
   (update_time_spec ⟨1000, 10, 1000, false⟩ 5).2.2.1 rfl (by decide),
   (update_time_spec ⟨1000, 10, 1000, false⟩ 1000).2.2.2,
   (update_time_spec ⟨1000, 10, 1000, false⟩ 5).2.2.2⟩

/-- Claim C7: whenever either side's score history has fewer than `n`
entries, the adjudicator returns `(false, false)` — the contest continues
with no early decision — for any window size `n` and threshold `w`. -/
theorem win_score_adjudication_short_history (n : Nat) (w : Int)
    (ws bs : List Int) (h : ws.length < n ∨ bs.length < n) :
    win_score_adjudication n w ws bs = (false, false) := by
  unfold win_score_adjudication
  rw [if_pos h]

/-- Witness for `win_score_adjudication_short_history`: a three-entry
White history against the default window 4 yields no decision. -/
theorem win_score_adjudication_short_history_witness :
    win_score_adjudication 4 700 [800, 800, 800] [-800, -800, -800, -800] =
      (false, false) :=
  win_score_adjudication_short_history 4 700 [800, 800, 800]
    [-800, -800, -800, -800] (by decide)

/-- Claim C10: when both sides' time-forfeit flags are set at
header-computation time (with `write_time_forfeit_result` at its initial
value `true`), the record reports termination "time forfeit" with result
"0-1": the White-side flag (`time_forfeit[1]`) is tested first and decides
the result, so Black is never also awarded a forfeit win in the same
record — whatever the adjudication signals and board facts are. -/
theorem update_headers_double_forfeit (adj : Bool × Bool) (b : BoardFacts) :
    update_headers true (true, true) adj b = ("time forfeit", "0-1") := by
  simp [update_headers]

/-- Claim C9: a completed outcome whose result token is none of "1-0",
"0-1", "1/2-1/2" leaves every competitor's win, loss, draw and
time-forfeit counters unchanged. -/
theorem update_score_other_result (res wp bp termi : String)
    (pd : List Player) (h1 : res ≠ "1-0") (h2 : res ≠ "0-1")
    (h3 : res ≠ "1/2-1/2") :
    update_score res wp bp termi pd = pd := by
  unfold update_score
  have hid : ∀ p, update_entry res wp bp termi p = p := by
    intro p
    unfold update_entry
    rw [if_neg h1, if_neg h2, if_neg h3]
  calc pd.map (update_entry res wp bp termi)
      = pd.map id := List.map_congr_left (fun p _ => hid p)
    _ = pd := List.map_id pd

/-- Witness for `update_score_other_result`: the unterminated token `*`
leaves a concrete two-entry scoreboard unchanged. -/
theorem update_score_other_result_witness :
    update_score "*" "A" "B" "time forfeit"
        [⟨"A", 1, 2, 3, 4⟩, ⟨"B", 5, 6, 7, 8⟩] =
      [⟨"A", 1, 2, 3, 4⟩, ⟨"B", 5, 6, 7, 8⟩] :=
  update_score_other_result "*" "A" "B" "time forfeit"
    [⟨"A", 1, 2, 3, 4⟩, ⟨"B", 5, 6, 7, 8⟩]
    (by decide) (by decide) (by decide)

/-- Claim C3: the termination reason and result follow strict precedence
(with `write_time_forfeit_result` at its initial value `true`): a set
time-forfeit flag on either side yields termination "time forfeit"
whatever the adjudication signals; otherwise a set adjudication signal
yields the adjudication termination with the corresponding decisive
result; otherwise the natural classification is chosen, in priority order
checkmate > stalemate > insufficient material > fifty-move rule >
threefold repetition > "unknown". -/
theorem update_headers_precedence (tf adj : Bool × Bool) (b : BoardFacts) :
    ((tf.1 = true ∨ tf.2 = true) →
      (update_headers true tf adj b).1 = "time forfeit")
    ∧ (tf.1 = false → tf.2 = false → (adj.1 = true ∨ adj.2 = true) →
        update_headers true tf adj b =
          (if adj.2 = true then ("adjudication: good score for white", "1-0")
           else ("adjudication: good score for black", "0-1")))
    ∧ (tf.1 = false → tf.2 = false → adj.1 = false → adj.2 = false →
        update_headers true tf adj b = (natural_termination b, b.natural_result))
    ∧ (b.is_checkmate = true → natural_termination b = "checkmate")
    ∧ (b.is_checkmate = false → b.is_stalemate = true →
        natural_termination b = "stalemate")
    ∧ (b.is_checkmate = false → b.is_stalemate = false →
        b.is_insufficient_material = true →
        natural_termination b = "insufficient mating material")
    ∧ (b.is_checkmate = false → b.is_stalemate = false →
        b.is_insufficient_material = false → b.can_claim_fifty_moves = true →
        natural_termination b = "fifty-move draw rule")
    ∧ (b.is_checkmate = false → b.is_stalemate = false →
        b.is_insufficient_material = false → b.can_claim_fifty_moves = false →
        b.is_repetition3 = true → natural_termination b = "threefold repetition")
    ∧ (b.is_checkmate = false → b.is_stalemate = false →
        b.is_insufficient_material = false → b.can_claim_fifty_moves = false →
        b.is_repetition3 = false → natural_termination b = "unknown") := by
  refine ⟨?_, ?_, ?_, ?_, ?_, ?_, ?_, ?_, ?_⟩
  · rcases tf with ⟨tf0, tf1⟩
    cases tf0 <;> cases tf1 <;> intro h <;> simp_all [update_headers]
  · rcases adj with ⟨a0, a1⟩
    cases a1 <;> intros <;> simp_all [update_headers]
  all_goals intros
  all_goals simp_all [update_headers, natural_termination]

/-- Witness for `update_headers_precedence`: concrete instantiations for a
forfeit with a simultaneous adjudication signal, a pure adjudication, and
a natural checkmate classification. -/
theorem update_headers_precedence_witness :
    (update_headers true (true, false) (false, true)
        ⟨true, false, false, false, false, "1-0"⟩).1 = "time forfeit"
    ∧ update_headers true (false, false) (false, true)
        ⟨false, false, false, false, false, "*"⟩ =
        ("adjudication: good score for white", "1-0")
    ∧ update_headers true (false, false) (false, false)
        ⟨true, false, false, false, false, "1-0"⟩ =
        (natural_termination ⟨true, false, false, false, false, "1-0"⟩, "1-0")
    ∧ natural_termination ⟨true, false, false, false, false, "1-0"⟩ =
        "checkmate" := by
  have h1 := update_headers_precedence (true, false) (false, true)
    ⟨true, false, false, false, false, "1-0"⟩
  have h2 := update_headers_precedence (false, false) (false, true)
    ⟨false, false, false, false, false, "*"⟩
  have h3 := update_headers_precedence (false, false) (false, false)
    ⟨true, false, false, false, false, "1-0"⟩
  exact ⟨h1.1 (Or.inl rfl),
         (h2.2.1 rfl rfl (Or.inr rfl)).trans (by decide),
         h3.2.2.1 rfl rfl rfl rfl,
         h3.2.2.2.1 rfl⟩

/-- Counting lemma for the adjudicator's windows: when a side's history has
at least `n` entries, the count of last-window scores satisfying `p`
reaches `n` exactly when every one of the last `n` scores satisfies `p`.
The right-hand side phrases "the last `n` scores" as
`xs.drop (xs.length - n)`; for `n = 0` the Python slice `xs[-0:]` is the
whole list while the last 0 scores are none, but both sides of the
equivalence are then trivially true. -/
theorem countP_lastN (n : Nat) (xs : List Int) (hn : n ≤ xs.length)
    (p : Int → Bool) :
    n ≤ (lastN n xs).countP p ↔ ∀ s ∈ xs.drop (xs.length - n), p s = true := by
  rcases Nat.eq_zero_or_pos n with h0 | h0
  · subst h0
    simp [List.drop_length]
  · have hn0 : n ≠ 0 := Nat.pos_iff_ne_zero.mp h0
    rw [lastN, if_neg hn0]
    have hlen : (xs.drop (xs.length - n)).length = n := by
      rw [List.length_drop]
      omega
    constructor
    · intro h
      have hle : (xs.drop (xs.length - n)).countP p ≤
          (xs.drop (xs.length - n)).length := List.countP_le_length p
      have heq : (xs.drop (xs.length - n)).countP p =
          (xs.drop (xs.length - n)).length := by omega
      exact List.countP_eq_length.mp heq
    · intro h
      have heq : (xs.drop (xs.length - n)).countP p =
          (xs.drop (xs.length - n)).length := List.countP_eq_length.mpr h
      omega

/-- Claim C1: for histories each with at least `n` entries, the adjudicator
returns white-wins `(false, true)` iff all of White's last `n` scores are
`≥ w` and all of Black's last `n` scores are `≤ -w`; it returns black-wins
`(true, false)` iff the mirror condition holds and the white-wins
condition does not; at most one of the two booleans is true; and when the
evidence for both winners holds simultaneously the white-wins answer is
returned. -/
theorem win_score_adjudication_spec (n : Nat) (w : Int) (ws bs : List Int)
    (hws : n ≤ ws.length) (hbs : n ≤ bs.length) :
    (win_score_adjudication n w ws bs = (false, true) ↔
      ((∀ s ∈ ws.drop (ws.length - n), w ≤ s) ∧
       (∀ s ∈ bs.drop (bs.length - n), s ≤ -w)))
    ∧ (win_score_adjudication n w ws bs = (true, false) ↔
      ((∀ s ∈ bs.drop (bs.length - n), w ≤ s) ∧
       (∀ s ∈ ws.drop (ws.length - n), s ≤ -w) ∧
       ¬((∀ s ∈ ws.drop (ws.length - n), w ≤ s) ∧
         (∀ s ∈ bs.drop (bs.length - n), s ≤ -w))))
    ∧ ¬((win_score_adjudication n w ws bs).1 = true ∧
        (win_score_adjudication n w ws bs).2 = true)
    ∧ (((∀ s ∈ ws.drop (ws.length - n), w ≤ s) ∧
        (∀ s ∈ bs.drop (bs.length - n), s ≤ -w) ∧
        (∀ s ∈ bs.drop (bs.length - n), w ≤ s) ∧
        (∀ s ∈ ws.drop (ws.length - n), s ≤ -w)) →
       win_score_adjudication n w ws bs = (false, true)) := by
  have hWg := countP_lastN n ws hws (fun s => decide (w ≤ s))
  have hBb := countP_lastN n bs hbs (fun s => decide (s ≤ -w))
  have hBg := countP_lastN n bs hbs (fun s => decide (w ≤ s))
  have hWb := countP_lastN n ws hws (fun s => decide (s ≤ -w))
  simp only [decide_eq_true_eq] at hWg hBb hBg hWb
  have hgf : ¬(ws.length < n ∨ bs.length < n) := by omega
  unfold win_score_adjudication
  rw [if_neg hgf]
  by_cases h1 : (n ≤ (lastN n ws).countP (fun s => decide (w ≤ s)) ∧
      n ≤ (lastN n bs).countP (fun s => decide (s ≤ -w)))
  · rw [if_pos h1]
    exact ⟨iff_of_true rfl ⟨hWg.mp h1.1, hBb.mp h1.2⟩,
           iff_of_false (by simp)
             (fun hc => hc.2.2 ⟨hWg.mp h1.1, hBb.mp h1.2⟩),
           by simp, fun _ => rfl⟩
  · rw [if_neg h1]
    have hnW : ¬((∀ s ∈ ws.drop (ws.length - n), w ≤ s) ∧
        (∀ s ∈ bs.drop (bs.length - n), s ≤ -w)) := by
      intro hc
      exact h1 ⟨hWg.mpr hc.1, hBb.mpr hc.2⟩
    by_cases h2 : (n ≤ (lastN n bs).countP (fun s => decide (w ≤ s)) ∧
        n ≤ (lastN n ws).countP (fun s => decide (s ≤ -w)))
    · rw [if_pos h2]
      exact ⟨iff_of_false (by simp) hnW,
             iff_of_true rfl ⟨hBg.mp h2.1, hWb.mp h2.2, hnW⟩,
             by simp, fun hc => absurd ⟨hc.1, hc.2.1⟩ hnW⟩
    · rw [if_neg h2]
      have hnB : ¬((∀ s ∈ bs.drop (bs.length - n), w ≤ s) ∧
          (∀ s ∈ ws.drop (ws.length - n), s ≤ -w)) := by
        intro hc
        exact h2 ⟨hBg.mpr hc.1, hWb.mpr hc.2⟩
      exact ⟨iff_of_false (by simp) hnW,
             iff_of_false (by simp) (fun hc => hnB ⟨hc.1, hc.2.1⟩),
             by simp, fun hc => absurd ⟨hc.1, hc.2.1⟩ hnW⟩

/-- Witness for `win_score_adjudication_spec`: with window 4 and threshold
700, four White scores at 750 against four Black scores at -750 are
adjudicated as a White win, and the call asserts only one winner. -/
theorem win_score_adjudication_spec_witness :
    (win_score_adjudication 4 700 [750, 750, 750, 750]
        [-750, -750, -750, -750] = (false, true) ↔
      ((∀ s ∈ ([750, 750, 750, 750] : List Int).drop 0, (700 : Int) ≤ s) ∧
       (∀ s ∈ ([-750, -750, -750, -750] : List Int).drop 0, s ≤ -700)))
    ∧ ¬((win_score_adjudication 4 700 [750, 750, 750, 750]
          [-750, -750, -750, -750]).1 = true ∧
        (win_score_adjudication 4 700 [750, 750, 750, 750]
          [-750, -750, -750, -750]).2 = true) := by
  have h := win_score_adjudication_spec 4 700 [750, 750, 750, 750]
    [-750, -750, -750, -750] (by decide) (by decide)
  exact ⟨h.1, h.2.2.1⟩

/-- Taking the last-`n` window commutes with mapping a function over the
history. -/
theorem lastN_map (n : Nat) (f : Int → Int) (xs : List Int) :
    lastN n (xs.map f) = (lastN n xs).map f := by
  unfold lastN
  split
  · rfl
  · rw [List.length_map, List.map_drop]

/-- Counting scores `≥ w` in a sign-negated window equals counting scores
`≤ -w` in the original window. -/
theorem countP_ge_map_neg (n : Nat) (w : Int) (xs : List Int) :
    (lastN n (xs.map (fun s => -s))).countP (fun s => decide (w ≤ s)) =
      (lastN n xs).countP (fun s => decide (s ≤ -w)) := by
  rw [lastN_map, List.countP_map]
  congr 1
  funext s
  simp only [Function.comp_apply]
  exact decide_eq_decide.mpr le_neg

/-- Counting scores `≤ -w` in a sign-negated window equals counting scores
`≥ w` in the original window. -/
theorem countP_le_map_neg (n : Nat) (w : Int) (xs : List Int) :
    (lastN n (xs.map (fun s => -s))).countP (fun s => decide (s ≤ -w)) =
      (lastN n xs).countP (fun s => decide (w ≤ s)) := by
  rw [lastN_map, List.countP_map]
  congr 1
  funext s
  simp only [Function.comp_apply]
  exact decide_eq_decide.mpr neg_le_neg_iff

/-- Claim C5 (amended): the adjudicator is invariant — not anti-symmetric —
under the sign-negated side swap: evaluating the negated Black history as
the White history and the negated White history as the Black history
yields the same decision as the original call.  The scores are
side-relative, so the transformed input describes the same contest. -/
theorem win_score_adjudication_negate_swap (n : Nat) (w : Int)
    (ws bs : List Int) :
    win_score_adjudication n w (bs.map (fun s => -s))
        (ws.map (fun s => -s)) =
      win_score_adjudication n w ws bs := by
  unfold win_score_adjudication
  simp only [List.length_map, countP_ge_map_neg, countP_le_map_neg]
  by_cases hg1 : ws.length < n <;> by_cases hg2 : bs.length < n <;>
    by_cases hA : n ≤ (lastN n ws).countP (fun s => decide (w ≤ s)) <;>
    by_cases hB : n ≤ (lastN n bs).countP (fun s => decide (s ≤ -w)) <;>
    by_cases hC : n ≤ (lastN n bs).countP (fun s => decide (w ≤ s)) <;>
    by_cases hD : n ≤ (lastN n ws).countP (fun s => decide (s ≤ -w)) <;>
    simp [hg1, hg2, hA, hB, hC, hD]

/-- Counterexample to claim C5 as stated: with window 1 and threshold 700,
White history `[700]` and Black history `[-700]` are adjudicated as a
White win; the sign-negated side-swapped input is the very same pair of
histories, so the call again returns white-wins rather than the swapped
black-wins decision the claim demands. -/
theorem win_score_adjudication_negate_swap_cex :
    ¬(win_score_adjudication 1 700 (([-700] : List Int).map (fun s => -s))
        (([700] : List Int).map (fun s => -s)) =
      ((win_score_adjudication 1 700 [700] [-700]).2,
       (win_score_adjudication 1 700 [700] [-700]).1)) := by
  decide

/-- Placeholder entry used only as the default of total list lookups in the
scoreboard statements; it stands for no competitor (the scoreboard itself
is never read out of range). -/
def dummy_player : Player := ⟨"", 0, 0, 0, 0⟩

/-- On a "1-0" result the White-named entry gains exactly one win. -/
theorem update_entry_win_white (wp bp termi : String) (p : Player)
    (hp : p.name = wp) (hne : wp ≠ bp) :
    update_entry "1-0" wp bp termi p = { p with win := p.win + 1 } := by
  simp [update_entry, hp, hne, Ne.symm hne]

/-- On a "1-0" result the Black-named entry gains exactly one loss, plus
one time forfeit when the termination reason is "time forfeit". -/
theorem update_entry_loss_black (wp bp termi : String) (p : Player)
    (hp : p.name = bp) (hne : wp ≠ bp) :
    update_entry "1-0" wp bp termi p =
      { p with loss := p.loss + 1,
               tf := if termi = "time forfeit" then p.tf + 1 else p.tf } := by
  simp [update_entry, hp, hne, Ne.symm hne]

/-- On a "0-1" result the Black-named entry gains exactly one win. -/
theorem update_entry_win_black (wp bp termi : String) (p : Player)
    (hp : p.name = bp) (hne : wp ≠ bp) :
    update_entry "0-1" wp bp termi p = { p with win := p.win + 1 } := by
  simp [update_entry, hp, hne, Ne.symm hne]

/-- On a "0-1" result the White-named entry gains exactly one loss, plus
one time forfeit when the termination reason is "time forfeit". -/
theorem update_entry_loss_white (wp bp termi : String) (p : Player)
    (hp : p.name = wp) (hne : wp ≠ bp) :
    update_entry "0-1" wp bp termi p =
      { p with loss := p.loss + 1,
               tf := if termi = "time forfeit" then p.tf + 1 else p.tf } := by
  simp [update_entry, hp, hne, Ne.symm hne]

/-- On a "1/2-1/2" result the White-named entry gains exactly one draw. -/
theorem update_entry_draw_white (wp bp termi : String) (p : Player)
    (hp : p.name = wp) (hne : wp ≠ bp) :
    update_entry "1/2-1/2" wp bp termi p = { p with draw := p.draw + 1 } := by
  simp [update_entry, hp, hne, Ne.symm hne]

/-- On a "1/2-1/2" result the Black-named entry gains exactly one draw. -/
theorem update_entry_draw_black (wp bp termi : String) (p : Player)
    (hp : p.name = bp) (hne : wp ≠ bp) :
    update_entry "1/2-1/2" wp bp termi p = { p with draw := p.draw + 1 } := by
  simp [update_entry, hp, hne, Ne.symm hne]

/-- An entry named neither after White nor after Black is untouched,
whatever the result token. -/
theorem update_entry_other (res wp bp termi : String) (p : Player)
    (hw : p.name ≠ wp) (hb : p.name ≠ bp) :
    update_entry res wp bp termi p = p := by
  simp [update_entry, hw, hb]

/-- Claim C6: on a scoreboard where the White name and the Black name are
distinct and each matches exactly one entry, a completed outcome
increments exactly one competitor's win counter and the other's loss
counter when the result is decisive, increments both competitors' draw
counters on "1/2-1/2", additionally increments the losing side's
time-forfeit counter exactly when the termination reason is
"time forfeit", and changes no other entry and no other counter (the
record-update equalities pin every untouched field). -/
theorem update_score_spec (res wp bp termi : String) (pd : List Player)
    (iw ib : Nat) (hiw : iw < pd.length) (hib : ib < pd.length)
    (hwname : (pd.getD iw dummy_player).name = wp)
    (hbname : (pd.getD ib dummy_player).name = bp)
    (hne : wp ≠ bp)
    (huw : ∀ j ∈ List.range pd.length,
      (pd.getD j dummy_player).name = wp → j = iw)
    (hub : ∀ j ∈ List.range pd.length,
      (pd.getD j dummy_player).name = bp → j = ib) :
    (res = "1-0" →
      (update_score res wp bp termi pd).getD iw dummy_player =
        { pd.getD iw dummy_player with
            win := (pd.getD iw dummy_player).win + 1 }
      ∧ (update_score res wp bp termi pd).getD ib dummy_player =
        { pd.getD ib dummy_player with
            loss := (pd.getD ib dummy_player).loss + 1,
            tf := if termi = "time forfeit" then
                (pd.getD ib dummy_player).tf + 1
              else (pd.getD ib dummy_player).tf }
      ∧ ∀ j, j ≠ iw → j ≠ ib →
        (update_score res wp bp termi pd).getD j dummy_player =
          pd.getD j dummy_player)
    ∧ (res = "0-1" →
      (update_score res wp bp termi pd).getD ib dummy_player =
        { pd.getD ib dummy_player with
            win := (pd.getD ib dummy_player).win + 1 }
      ∧ (update_score res wp bp termi pd).getD iw dummy_player =
        { pd.getD iw dummy_player with
            loss := (pd.getD iw dummy_player).loss + 1,
            tf := if termi = "time forfeit" then
                (pd.getD iw dummy_player).tf + 1
              else (pd.getD iw dummy_player).tf }
      ∧ ∀ j, j ≠ iw → j ≠ ib →
        (update_score res wp bp termi pd).getD j dummy_player =
          pd.getD j dummy_player)
    ∧ (res = "1/2-1/2" →
      (update_score res wp bp termi pd).getD iw dummy_player =
        { pd.getD iw dummy_player with
            draw := (pd.getD iw dummy_player).draw + 1 }
      ∧ (update_score res wp bp termi pd).getD ib dummy_player =
        { pd.getD ib dummy_player with
            draw := (pd.getD ib dummy_player).draw + 1 }
      ∧ ∀ j, j ≠ iw → j ≠ ib →
        (update_score res wp bp termi pd).getD j dummy_player =
          pd.getD j dummy_player) := by
  have hlen : (update_score res wp bp termi pd).length = pd.length := by
    simp [update_score]
  have hget : ∀ j, j < pd.length →
      (update_score res wp bp termi pd).getD j dummy_player =
        update_entry res wp bp termi (pd.getD j dummy_player) := by
    intro j hj
    rw [List.getD_eq_getElem _ _ (hlen ▸ hj), List.getD_eq_getElem _ _ hj]
    simp [update_score]
  have hframe : ∀ j, j ≠ iw → j ≠ ib →
      (update_score res wp bp termi pd).getD j dummy_player =
        pd.getD j dummy_player := by
    intro j hjw hjb
    by_cases hj : j < pd.length
    · rw [hget j hj]
      refine update_entry_other res wp bp termi _ ?_ ?_
      · exact fun hc => hjw (huw j (List.mem_range.mpr hj) hc)
      · exact fun hc => hjb (hub j (List.mem_range.mpr hj) hc)
    · rw [List.getD_eq_default _ _ (by omega),
        List.getD_eq_default _ _ (by omega)]
  refine ⟨?_, ?_, ?_⟩ <;> intro hres <;> subst hres
  · exact ⟨(hget iw hiw).trans
      (update_entry_win_white wp bp termi _ hwname hne),
      (hget ib hib).trans
        (update_entry_loss_black wp bp termi _ hbname hne), hframe⟩
  · exact ⟨(hget ib hib).trans
      (update_entry_win_black wp bp termi _ hbname hne),
      (hget iw hiw).trans
        (update_entry_loss_white wp bp termi _ hwname hne), hframe⟩
  · exact ⟨(hget iw hiw).trans
      (update_entry_draw_white wp bp termi _ hwname hne),
      (hget ib hib).trans
        (update_entry_draw_black wp bp termi _ hbname hne), hframe⟩

/-- Witness for `update_score_spec`: a concrete "1-0" time-forfeit outcome
on a two-entry scoreboard gives the winner one win, gives the loser one
loss and one time forfeit, and leaves out-of-range lookups untouched. -/
theorem update_score_spec_witness :
    (update_score "1-0" "A" "B" "time forfeit"
        [⟨"A", 0, 0, 0, 0⟩, ⟨"B", 1, 2, 3, 4⟩]).getD 0 dummy_player =
      ⟨"A", 1, 0, 0, 0⟩
    ∧ (update_score "1-0" "A" "B" "time forfeit"
        [⟨"A", 0, 0, 0, 0⟩, ⟨"B", 1, 2, 3, 4⟩]).getD 1 dummy_player =
      ⟨"B", 1, 3, 3, 5⟩ := by
  have h := update_score_spec "1-0" "A" "B" "time forfeit"
    [⟨"A", 0, 0, 0, 0⟩, ⟨"B", 1, 2, 3, 4⟩] 0 1
    (by decide) (by decide) (by decide) (by decide) (by decide)
    (by decide) (by decide)
  exact ⟨((h.1 rfl).1).trans (by decide), ((h.1 rfl).2.1).trans (by decide)⟩

/-- Two consecutive blocks of consecutive naturals form one block. -/
theorem range'_concat (s a b : Nat) :
    List.range' s a ++ List.range' (s + a) b = List.range' s (a + b) := by
  have h := List.range'_append s a b 1
  simp only [one_mul] at h
  rw [Nat.add_comm a b]
  exact h

/-- For one pairing, the inner loop emits one fixture (two with reversed
colors), the final `game_id` advances by the number of emitted fixtures,
and the emitted ids are consecutive starting right after the incoming
`game_id`. -/
theorem pair_fixtures_spec (round_num m n gid sr : Nat) (reverse : Bool)
    (gc : GauntletColor) :
    ((pair_fixtures round_num m n gid sr reverse gc).1.length =
      (if one_game_only reverse gc then 1 else 2))
    ∧ (pair_fixtures round_num m n gid sr reverse gc).2.1 =
      gid + (pair_fixtures round_num m n gid sr reverse gc).1.length
    ∧ (pair_fixtures round_num m n gid sr reverse gc).1.map
        (fun f => f.game_id) =
      List.range' (gid + 1)
        (pair_fixtures round_num m n gid sr reverse gc).1.length := by
  unfold pair_fixtures
  split <;> simp [List.range']

/-- Iterating the pairings multiplies the per-pairing count, advances the
final `game_id` by the emitted count, and keeps the ids consecutive. -/
theorem pairs_fixtures_spec (round_num : Nat) (reverse : Bool)
    (gc : GauntletColor) (ps : List (Nat × Nat)) : ∀ gid sr,
    ((pairs_fixtures round_num reverse gc ps gid sr).1.length =
      ps.length * (if one_game_only reverse gc then 1 else 2))
    ∧ (pairs_fixtures round_num reverse gc ps gid sr).2.1 =
      gid + (pairs_fixtures round_num reverse gc ps gid sr).1.length
    ∧ (pairs_fixtures round_num reverse gc ps gid sr).1.map
        (fun f => f.game_id) =
      List.range' (gid + 1)
        (pairs_fixtures round_num reverse gc ps gid sr).1.length := by
  induction ps with
  | nil =>
    intro gid sr
    simp [pairs_fixtures]
  | cons hd tl ih =>
    intro gid sr
    rcases hd with ⟨m, n⟩
    obtain ⟨hp1, hp2, hp3⟩ := pair_fixtures_spec round_num m n gid sr
      reverse gc
    obtain ⟨hi1, hi2, hi3⟩ := ih (pair_fixtures round_num m n gid sr
      reverse gc).2.1 (pair_fixtures round_num m n gid sr reverse gc).2.2
    simp only [pairs_fixtures, List.length_append, List.map_append,
      List.length_cons]
    refine ⟨by rw [hp1, hi1]; ring, by omega, ?_⟩
    rw [hp3, hi3,
      show (pair_fixtures round_num m n gid sr reverse gc).2.1 + 1 =
        gid + 1 +
          (pair_fixtures round_num m n gid sr reverse gc).1.length from by
        rw [hp2]
        omega,
      range'_concat]

/-- Iterating the rounds multiplies the per-round count, advances the
final `game_id` accordingly, and keeps the ids consecutive across
rounds. -/
theorem rounds_fixtures_spec (K : Nat) (reverse : Bool) (gc : GauntletColor)
    (P : Nat) : ∀ round_num gid,
    ((rounds_fixtures K reverse gc P round_num gid).1.length =
      P * ((K - 1) * (if one_game_only reverse gc then 1 else 2)))
    ∧ (rounds_fixtures K reverse gc P round_num gid).2 =
      gid + (rounds_fixtures K reverse gc P round_num gid).1.length
    ∧ (rounds_fixtures K reverse gc P round_num gid).1.map
        (fun f => f.game_id) =
      List.range' (gid + 1)
        (rounds_fixtures K reverse gc P round_num gid).1.length := by
  have hgp : (gauntlet_pairs K gc).length = K - 1 := by
    simp [gauntlet_pairs]
  induction P with
  | zero =>
    intro round_num gid
    simp [rounds_fixtures]
  | succ p ih =>
    intro round_num gid
    obtain ⟨hp1, hp2, hp3⟩ := pairs_fixtures_spec (round_num + 1) reverse gc
      (gauntlet_pairs K gc) gid 0
    obtain ⟨hi1, hi2, hi3⟩ := ih (round_num + 1)
      (pairs_fixtures (round_num + 1) reverse gc (gauntlet_pairs K gc)
        gid 0).2.1
    simp only [rounds_fixtures, List.length_append, List.map_append]
    refine ⟨by rw [hp1, hi1, hgp]; ring, by omega, ?_⟩
    rw [hp3, hi3,
      show (pairs_fixtures (round_num + 1) reverse gc (gauntlet_pairs K gc)
          gid 0).2.1 + 1 =
        gid + 1 +
          (pairs_fixtures (round_num + 1) reverse gc (gauntlet_pairs K gc)
            gid 0).1.length from by
        rw [hp2]
        omega,
      range'_concat]

/-- Claim C8: across the entire fixture expansion — any roster size, any
position count, with or without `reverse_start_side` and with or without a
gauntlet color — the global fixture ids are exactly `1, 2, 3, …` in
submission order: each id is one greater than the previous, hence the ids
are strictly increasing and unique, independent of round and pairing
structure. -/
theorem schedule_fixtures_game_ids (K P : Nat) (r : Bool)
    (gc : GauntletColor) :
    (schedule_fixtures K P r gc).map (fun f => f.game_id) =
      List.range' 1 (schedule_fixtures K P r gc).length := by
  have h := (rounds_fixtures_spec K r gc P 0 0).2.2
  simpa [schedule_fixtures] using h

/-- Counterexample to claim C4 as stated: with two competitors, one
starting position, `reverse` off and `gauntlet_color = "white"`, the loop
submits one fixture, but the claimed formula `(K-1) * P * 1`, halved for
the gauntlet flag, gives 0 (it is the code's own `total_games` value,
lines 912-913). -/
theorem schedule_fixtures_count_cex :
    (schedule_fixtures 2 1 false (some "white")).length ≠
      total_games 2 1 false (some "white") := by
  decide

/-- Claim C4 (amended): the number of fixtures created and submitted is
`(K-1) * P * 2` when `reverseColors` is set and no white/black gauntlet
flag is given, and `(K-1) * P` otherwise — the halving the claim ascribes
to a gauntlet flag is real only when `reverseColors` is also set; with a
gauntlet flag and no `reverseColors` the submitted count stays
`(K-1) * P` (while the code's reported `total_games` halves it).  In
particular, for `K = 2` with `reverseColors = false` and no gauntlet the
fixture count equals `P` exactly, and enabling `reverseColors` doubles
it. -/
theorem schedule_fixtures_count (K P : Nat) (r : Bool) (gc : GauntletColor) :
    ((schedule_fixtures K P r gc).length =
      (K - 1) * P *
        (if r = true ∧ gc ≠ some "white" ∧ gc ≠ some "black" then 2 else 1))
    ∧ (schedule_fixtures 2 P false none).length = P
    ∧ (schedule_fixtures 2 P true none).length = 2 * P := by
  have main : ∀ (K' : Nat) (r' : Bool) (gc' : GauntletColor),
      (schedule_fixtures K' P r' gc').length =
        (K' - 1) * P *
          (if r' = true ∧ gc' ≠ some "white" ∧ gc' ≠ some "black"
           then 2 else 1) := by
    intro K' r' gc'
    have h := (rounds_fixtures_spec K' r' gc' P 0 0).1
    have hone : (if one_game_only r' gc' then 1 else 2) =
        (if r' = true ∧ gc' ≠ some "white" ∧ gc' ≠ some "black"
         then 2 else 1) := by
      unfold one_game_only
      by_cases h1 : gc' = some "white" <;> by_cases h2 : gc' = some "black" <;>
        cases r' <;> simp [h1, h2]
    rw [schedule_fixtures, h, hone]
    ring
  refine ⟨main K r gc, ?_, ?_⟩
  · rw [main 2 false none]
    simp
  · rw [main 2 true none]
    simp [two_mul]
    ring

end Combat
